import Mathlib

set_option maxHeartbeats 1000000
set_option maxRecDepth 40000

/-
Verification development for the BowlerTrax video-analysis script
(src/Analysis/process_videos.py).  The Python source is shallowly embedded:
floating-point quantities are modelled as exact rationals, the filesystem and
external processes (OpenCV decoding, ffmpeg, the Whisper model) are modelled
as explicit environment records, and each Python function becomes a pure Lean
function over those records.
-/

/-- Python `int()` applied to a (rational-valued) float: truncation toward zero. -/
def pyInt (q : ℚ) : ℤ := if 0 ≤ q then ⌊q⌋ else ⌈q⌉

/-- Decimal digit character, `digitChar d` is the ASCII digit for `d < 10`. -/
def digitChar (d : ℕ) : Char := Char.ofNat (48 + d)

/-- Fuel-based decimal rendering of a natural number (most significant first). -/
def natDigitsAux : ℕ → ℕ → List Char
  | 0, _ => []
  | fuel + 1, n =>
    if n < 10 then [digitChar n]
    else natDigitsAux fuel (n / 10) ++ [digitChar (n % 10)]

/-- Decimal rendering of a natural number, as Python `str` produces it. -/
def natStr (n : ℕ) : String := String.mk (natDigitsAux (n + 1) n)

/-- Decimal rendering of an integer. -/
def intStr (i : ℤ) : String := if i < 0 then "-" ++ natStr (-i).toNat else natStr i.toNat

/-- Two-digit zero-padded rendering, as Python `f"{n:02d}"` for `n < 100`. -/
def twoDigits (n : ℕ) : String := if n < 10 then "0" ++ natStr n else natStr n

/-- Python `str(datetime.timedelta(seconds=n))`: `H:MM:SS`, with a day prefix
when the normalized day count is nonzero. -/
def timedeltaStr (n : ℤ) : String :=
  let days := Int.fdiv n 86400
  let rem := (n - 86400 * days).toNat
  let h := rem / 3600
  let m := rem % 3600 / 60
  let s := rem % 60
  let hms := natStr h ++ ":" ++ twoDigits m ++ ":" ++ twoDigits s
  if days = 0 then hms
  else intStr days ++ (if days = 1 ∨ days = -1 then " day, " else " days, ") ++ hms

/-- Round half to even, the tie-breaking rule used by Python float formatting. -/
def rhe (q : ℚ) : ℤ :=
  if q - ⌊q⌋ < 1/2 then ⌊q⌋
  else if 1/2 < q - ⌊q⌋ then ⌊q⌋ + 1
  else if ⌊q⌋ % 2 = 0 then ⌊q⌋ else ⌊q⌋ + 1

/-- Python `f"{t:.1f}"`: one decimal digit after the point. -/
def fmtOneDecimal (t : ℚ) : String :=
  let n := rhe (t * 10)
  if n < 0 then "-" ++ natStr ((-n).toNat / 10) ++ "." ++ natStr ((-n).toNat % 10)
  else natStr (n.toNat / 10) ++ "." ++ natStr (n.toNat % 10)

/-- Zero-pad a string on the left to width `w`, as Python `f"{n:04d}"` does for
the rendered digits of `n`. -/
def padLeft (w : ℕ) (s : String) : String :=
  String.mk (List.replicate (w - s.length) '0') ++ s

/-- Frame file name from process_videos.py line 117:
`f"frame_{saved_count:04d}_t{timestamp:.1f}s.jpg"`. -/
def mkFilename (savedCount : ℕ) (timestamp : ℚ) : String :=
  "frame_" ++ padLeft 4 (natStr savedCount) ++ "_t" ++ fmtOneDecimal timestamp ++ "s.jpg"

/-- Number of newline characters in a string; for a text file whose every line
is newline-terminated this is the number of lines. -/
def lineCount (s : String) : ℕ := s.data.count '\n'

/-- Python whitespace test for `str.strip()` (ASCII whitespace). -/
def isPySpace (c : Char) : Bool :=
  c == ' ' || c == '\t' || c == '\n' || c == '\r' || c == Char.ofNat 11 || c == Char.ofNat 12

/-- Python `str.strip()`. -/
def pyStrip (s : String) : String :=
  String.mk (((s.data.dropWhile isPySpace).reverse.dropWhile isPySpace).reverse)

/- ## Frame Sampler (extract_frames, lines 83-147) -/

/-- A decoded video frame; only its pixel dimensions matter to the script. -/
structure Frame where
  width : ℕ
  height : ℕ
deriving DecidableEq

/-- A source video as seen through `cv2.VideoCapture`: whether it opens, the
reported frame rate, and the sequence of decodable frames.  The reported
`CAP_PROP_FRAME_COUNT` is the length of `frames`. -/
structure Video where
  opened : Bool
  fps : ℚ
  frames : List Frame
deriving DecidableEq

/-- Manifest entry appended at lines 127-131 of the source. -/
structure ExtractedFrame where
  filename : String
  timestamp : ℚ
  frame_number : ℕ
deriving DecidableEq

/-- A JPEG written by `cv2.imwrite` at line 126: name, dimensions, quality. -/
structure SavedImage where
  filename : String
  width : ℕ
  height : ℕ
  jpegQuality : ℕ
deriving DecidableEq

/-- Resizing logic of lines 121-124: frames wider than 1280px are scaled by
`1280/width` with `int()` truncation of both scaled dimensions. -/
def resizeDims (w h : ℕ) : ℕ × ℕ :=
  if 1280 < w then
    let scale : ℚ := 1280 / (w : ℚ)
    ((pyInt ((w : ℚ) * scale)).toNat, (pyInt ((h : ℚ) * scale)).toNat)
  else (w, h)

/-- Processing of one kept frame (lines 116-131): timestamp, file name,
resize, JPEG write at quality 85, manifest entry. -/
def keepFrame (fps : ℚ) (frameCount savedCount : ℕ) (fr : Frame) :
    ExtractedFrame × SavedImage :=
  let timestamp : ℚ := (frameCount : ℚ) / fps
  let filename := mkFilename savedCount timestamp
  let wh := resizeDims fr.width fr.height
  (⟨filename, timestamp, frameCount⟩, ⟨filename, wh.1, wh.2, 85⟩)

/-- The decode loop of lines 110-137: walk frames in order keeping those whose
index is a multiple of `frame_interval`, tracking `frame_count` and
`saved_count`. -/
def extractLoop (itv : ℤ) (fps : ℚ) :
    List Frame → ℕ → ℕ → List (ExtractedFrame × SavedImage)
  | [], _, _ => []
  | fr :: rest, frameCount, savedCount =>
    if (frameCount : ℤ) % itv = 0 then
      keepFrame fps frameCount savedCount fr ::
        extractLoop itv fps rest (frameCount + 1) (savedCount + 1)
    else
      extractLoop itv fps rest (frameCount + 1) savedCount

/-- Result of a call to `extract_frames`, including its filesystem effects.
`faulted` records an uncaught Python exception (ZeroDivisionError). -/
structure ExtractResult where
  returnedFrames : List ExtractedFrame
  savedImages : List SavedImage
  createdOutputDir : Bool
  manifest : Option (List ExtractedFrame)
  duration : Option ℚ
  faulted : Bool
deriving DecidableEq

/-- Embedding of `extract_frames` (lines 83-147).  Order of events in the
source: open check (line 91), `duration = total_frames / fps` (line 97,
ZeroDivisionError when `fps = 0`), `frame_interval = int(fps / fps_sample)`
(line 102, ZeroDivisionError when `fps_sample = 0`), `mkdir` (line 104), the
decode loop (lines 110-137, `frame_count % frame_interval` raising when the
interval is zero and a frame exists), manifest write (lines 143-145). -/
def extract_frames (v : Video) (fps_sample : ℚ) : ExtractResult :=
  if v.opened = false then
    ⟨[], [], false, none, none, false⟩
  else if v.fps = 0 then
    ⟨[], [], false, none, none, true⟩
  else
    let duration : ℚ := (v.frames.length : ℚ) / v.fps
    if fps_sample = 0 then
      ⟨[], [], false, none, some duration, true⟩
    else
      let frame_interval := pyInt (v.fps / fps_sample)
      if frame_interval = 0 ∧ v.frames ≠ [] then
        ⟨[], [], true, none, some duration, true⟩
      else
        let pairs := extractLoop frame_interval v.fps v.frames 0 0
        ⟨pairs.map Prod.fst, pairs.map Prod.snd, true,
          some (pairs.map Prod.fst), some duration, false⟩

/- ## Audio loading (load_audio_from_wav, lines 46-51) -/

/-- Embedding of `load_audio_from_wav`: each 16-bit signed PCM sample is
converted to float and divided by 32768.0. -/
def load_audio_from_wav (samples : List ℤ) : List ℚ :=
  samples.map (fun (s : ℤ) => (s : ℚ) / 32768)

/- ## Audio Extractor (extract_audio, lines 54-80) -/

/-- Environment of one `extract_audio` call: the pre-existing WAV content (if
the target file exists), the transcoder's exit code and the content it writes
on success, and whatever partial content it may leave behind on failure. -/
structure AudioEnv where
  existingWav : Option (List ℤ)
  transcoderExit : ℤ
  transcoderOutput : List ℤ
  failureLeftover : Option (List ℤ)
deriving DecidableEq

/-- Outcome of `extract_audio`: the returned path (`none` models Python
`None`), whether the external transcoder process was launched, and the content
of the target WAV file after the call (`none` when it does not exist). -/
structure AudioResult where
  returned : Option String
  transcoderInvoked : Bool
  fileContentAfter : Option (List ℤ)
deriving DecidableEq

/-- Deterministic output name from line 57: `f"{video_path.stem}.wav"`. -/
def audioFileName (stem : String) : String := stem ++ ".wav"

/-- Embedding of `extract_audio` (lines 54-80): if the target WAV already
exists it is returned untouched (lines 59-61); otherwise ffmpeg runs and a
non-zero exit code yields `None` (lines 75-78). -/
def extract_audio (stem : String) (env : AudioEnv) : AudioResult :=
  let audio_file := audioFileName stem
  match env.existingWav with
  | some content => ⟨some audio_file, false, some content⟩
  | none =>
    if env.transcoderExit ≠ 0 then ⟨none, true, env.failureLeftover⟩
    else ⟨some audio_file, true, some env.transcoderOutput⟩

/- ## Transcriber (transcribe_audio, lines 150-196) -/

/-- One Whisper segment as produced by `model.transcribe`. -/
structure Segment where
  start : ℚ
  stop : ℚ
  text : String
deriving DecidableEq

/-- The value returned by `model.transcribe`: full text plus segments. -/
structure WhisperResult where
  text : String
  segments : List Segment
deriving DecidableEq

/-- One line of the text transcript (line 175 of the source):
`f"[{start} - {end}] {text}\n"` with timestamps truncated to integer seconds
and rendered as timedeltas, and the segment text stripped. -/
def segmentLine (seg : Segment) : String :=
  "[" ++ timedeltaStr (pyInt seg.start) ++ " - " ++ timedeltaStr (pyInt seg.stop) ++ "] "
    ++ pyStrip seg.text ++ "\n"

/-- Concatenation of all segment lines (the loop at lines 171-175). -/
def segmentLines : List Segment → String
  | [] => ""
  | seg :: rest => segmentLine seg ++ segmentLines rest

/-- Full content of the text transcript file (lines 169-175): a header line,
a blank line, then one line per segment. -/
def transcriptText (stem : String) (r : WhisperResult) : String :=
  "# Transcript: " ++ stem ++ "\n\n" ++ segmentLines r.segments

/-- The two artifacts written by `transcribe_audio`: the text transcript and
the JSON transcript (full text plus stripped segments, lines 179-190). -/
structure TranscriptFiles where
  txt : String
  jsonText : String
  jsonSegments : List Segment
deriving DecidableEq

/-- Embedding of the file-writing part of `transcribe_audio` (lines 167-190),
given the Whisper model output `r`. -/
def transcribe_audio (stem : String) (r : WhisperResult) : TranscriptFiles :=
  { txt := transcriptText stem r
    jsonText := r.text
    jsonSegments := r.segments.map (fun seg => ⟨seg.start, seg.stop, pyStrip seg.text⟩) }

/- ## Run Orchestrator (main, lines 199-263) -/

/-- One configured video job (entries of the `VIDEOS` list, lines 27-43).
`stem` is the base name of the source file without extension. -/
structure VideoJob where
  name : String
  stem : String
  title : String
deriving DecidableEq

/-- Environment for one job: whether the source file exists, what the decoder
sees, the audio-extraction environment, and the Whisper output. -/
structure JobEnv where
  sourceExists : Bool
  video : Video
  audio : AudioEnv
  whisperResult : WhisperResult
deriving DecidableEq

/-- Per-job summary record built at lines 235-250. -/
structure VideoSummary where
  title : String
  frames_extracted : ℕ
  frames_dir : String
  transcript_length : ℕ
  segments_count : ℕ
  error : Option String
deriving DecidableEq

/-- Frames output directory, `FRAMES_DIR / video_name` (line 223). -/
def framesDir (name : String) : String :=
  "D:/Projects/BowlerTrax/Analysis/frames/" ++ name

/-- Outcome of processing one job inside the loop of `main`:
whether an uncaught exception occurred, the summary entry added to `results`
(`none` when the job was skipped), and the transcript files written when
transcription ran. -/
structure JobOutcome where
  faulted : Bool
  entry : Option (String × VideoSummary)
  transcribed : Option TranscriptFiles
deriving DecidableEq

/-- One iteration of the loop in `main` (lines 211-250): skip when the source
file is missing (lines 218-220), extract frames, extract audio, and
transcribe only when `audio_file and audio_file.exists()` holds
(lines 226-250). -/
def processJob (job : VideoJob) (env : JobEnv) : JobOutcome :=
  if env.sourceExists = false then ⟨false, none, none⟩
  else if (extract_frames env.video (1/2)).faulted then ⟨true, none, none⟩
  else if (extract_audio job.stem env.audio).returned.isSome
        && (extract_audio job.stem env.audio).fileContentAfter.isSome then
    ⟨false,
      some (job.name,
        ⟨job.title, (extract_frames env.video (1/2)).returnedFrames.length,
         framesDir job.name,
         env.whisperResult.text.length, env.whisperResult.segments.length, none⟩),
      some (transcribe_audio job.stem env.whisperResult)⟩
  else
    ⟨false,
      some (job.name,
        ⟨job.title, (extract_frames env.video (1/2)).returnedFrames.length,
         framesDir job.name,
         0, 0, some "Audio extraction failed"⟩),
      none⟩

/-- Embedding of `main` (lines 199-263): process the configured jobs in order,
accumulating summary entries; an uncaught exception (`none`) aborts the run
and the summary file is never written. -/
def main : List (VideoJob × JobEnv) → Option (List (String × VideoSummary))
  | [] => some []
  | (j, e) :: rest =>
    let o := processJob j e
    if o.faulted then none
    else
      match o.entry with
      | none => main rest
      | some en => (main rest).map (fun r => en :: r)

/-- Unfolding equation for `main` on a non-empty job list. -/
theorem main_cons (j : VideoJob) (e : JobEnv) (rest : List (VideoJob × JobEnv)) :
    main ((j, e) :: rest)
      = (if (processJob j e).faulted then none
         else
           match (processJob j e).entry with
           | none => main rest
           | some en => (main rest).map (fun r => en :: r)) := rfl

/- ## Helper lemmas: arithmetic -/

theorem pyInt_of_nonneg {q : ℚ} (h : 0 ≤ q) : pyInt q = ⌊q⌋ := if_pos h

theorem ceil_div_step (m c : ℕ) (hm : 0 < m) :
    (c + m - 1) / m + (if c % m = 0 then 1 else 0) = (c + m) / m := by
  obtain ⟨q, r, hr, rfl⟩ : ∃ q r, r < m ∧ c = m * q + r :=
    ⟨c / m, c % m, Nat.mod_lt _ hm, (Nat.div_add_mod c m).symm⟩
  have hrm : (m * q + r) % m = r := by
    rw [Nat.add_comm, Nat.add_mul_mod_self_left, Nat.mod_eq_of_lt hr]
  rw [hrm]
  rcases Nat.eq_zero_or_pos r with rfl | hr1
  · have h1 : m * q + 0 + m - 1 = m * q + (m - 1) := by omega
    have h2 : m * q + 0 + m = m * q + m := by omega
    rw [h1, h2, Nat.mul_add_div hm, Nat.mul_add_div hm,
      Nat.div_eq_of_lt (by omega), Nat.div_self hm, if_pos rfl]
  · have h1 : m * q + r + m - 1 = m * q + (r + m - 1) := by omega
    have h2 : m * q + r + m = m * q + (r + m) := by omega
    rw [h1, h2, Nat.mul_add_div hm, Nat.mul_add_div hm, if_neg (by omega)]
    have h3 : (r + m - 1) / m = 1 := by
      have e : r + m - 1 = (r - 1) + m := by omega
      rw [e, Nat.add_div_right _ hm, Nat.div_eq_of_lt (by omega)]
    have h4 : (r + m) / m = 1 := by
      rw [Nat.add_div_right _ hm, Nat.div_eq_of_lt hr]
    omega

theorem int_mod_natCast_eq_zero {c m : ℕ} : ((c : ℤ) % (m : ℤ) = 0) ↔ c % m = 0 := by
  constructor <;> intro h <;> exact_mod_cast h

theorem length_filter_range'_mod (m : ℕ) (hm : 0 < m) :
    ∀ (len c : ℕ),
      ((List.range' c len).filter (fun (k : ℕ) => decide ((k : ℤ) % (m : ℤ) = 0))).length
          + (c + m - 1) / m
        = (c + len + m - 1) / m := by
  intro len
  induction len with
  | zero => intro c; simp
  | succ n ih =>
    intro c
    rw [List.range'_succ, List.filter_cons]
    have hstep := ceil_div_step m c hm
    have ihc := ih (c + 1)
    have e1 : c + 1 + m - 1 = c + m := by omega
    have e2 : c + 1 + n + m - 1 = c + n + m := by omega
    have e3 : c + (n + 1) + m - 1 = c + n + m := by omega
    rw [e1, e2] at ihc
    rw [e3]
    by_cases hc : c % m = 0
    · rw [if_pos (decide_eq_true (int_mod_natCast_eq_zero.mpr hc))]
      rw [if_pos hc] at hstep
      simp only [List.length_cons]
      linarith
    · rw [if_neg (by simp only [decide_eq_true_eq]; exact fun h => hc (int_mod_natCast_eq_zero.mp h))]
      rw [if_neg hc] at hstep
      linarith

theorem ceil_natCast_div (N mn : ℕ) (h : 0 < mn) :
    ⌈(N : ℚ) / (mn : ℚ)⌉ = ((N + mn - 1) / mn : ℕ) := by
  set k := (N + mn - 1) / mn with hk
  have hk1 : k * mn ≤ N + mn - 1 := Nat.div_mul_le_self _ _
  have hk2 : N + mn - 1 < (k + 1) * mn := by
    rw [← Nat.div_lt_iff_lt_mul h]
    omega
  have hz1 : (k : ℤ) * mn ≤ (N : ℤ) + mn - 1 := by
    zify [show 1 ≤ N + mn by omega] at hk1
    linarith
  have hz2 : (N : ℤ) + mn - 1 < ((k : ℤ) + 1) * mn := by
    zify [show 1 ≤ N + mn by omega] at hk2
    linarith
  have hmq : (0 : ℚ) < (mn : ℚ) := by exact_mod_cast h
  rw [Int.ceil_eq_iff]
  constructor
  · rw [lt_div_iff₀ hmq]
    have : ((k : ℤ) - 1) * mn < N := by nlinarith
    push_cast
    exact_mod_cast (by push_cast; exact_mod_cast this : (((k : ℤ) - 1) * mn : ℚ) < (N : ℚ))
  · rw [div_le_iff₀ hmq]
    have : (N : ℤ) ≤ (k : ℤ) * mn := by linarith
    exact_mod_cast this

/- ## Helper lemmas: the decode loop -/

theorem extractLoop_map_frame_number (itv : ℤ) (fps : ℚ) :
    ∀ (l : List Frame) (c s : ℕ),
      (extractLoop itv fps l c s).map (fun p => p.1.frame_number)
        = (List.range' c l.length).filter (fun (k : ℕ) => decide ((k : ℤ) % itv = 0)) := by
  intro l
  induction l with
  | nil => intro c s; simp [extractLoop]
  | cons fr rest ih =>
    intro c s
    rw [List.length_cons, List.range'_succ, List.filter_cons]
    by_cases hc : (c : ℤ) % itv = 0
    · simp only [extractLoop, if_pos hc, List.map_cons, ih]
      rw [if_pos (decide_eq_true hc)]
      rfl
    · simp only [extractLoop, if_neg hc, ih]
      rw [if_neg (by simp only [decide_eq_true_eq]; exact hc)]

theorem extractLoop_timestamp (itv : ℤ) (fps : ℚ) :
    ∀ (l : List Frame) (c s : ℕ) (p : ExtractedFrame × SavedImage),
      p ∈ extractLoop itv fps l c s → p.1.timestamp = (p.1.frame_number : ℚ) / fps := by
  intro l
  induction l with
  | nil => intro c s p hp; simp [extractLoop] at hp
  | cons fr rest ih =>
    intro c s p hp
    simp only [extractLoop] at hp
    by_cases hc : (c : ℤ) % itv = 0
    · rw [if_pos hc] at hp
      rcases List.mem_cons.mp hp with h | h
      · subst h; rfl
      · exact ih _ _ _ h
    · rw [if_neg hc] at hp
      exact ih _ _ _ hp

theorem extractLoop_get? (itv : ℤ) (fps : ℚ) :
    ∀ (l : List Frame) (c s i : ℕ) (p : ExtractedFrame × SavedImage),
      (extractLoop itv fps l c s).get? i = some p →
      ∃ k fr, l.get? k = some fr ∧ ((c + k : ℕ) : ℤ) % itv = 0 ∧
        p = keepFrame fps (c + k) (s + i) fr := by
  intro l
  induction l with
  | nil => intro c s i p hp; simp [extractLoop] at hp
  | cons fr rest ih =>
    intro c s i p hp
    simp only [extractLoop] at hp
    by_cases hc : (c : ℤ) % itv = 0
    · rw [if_pos hc] at hp
      cases i with
      | zero =>
        rw [List.get?_cons_zero] at hp
        refine ⟨0, fr, rfl, by simpa using hc, ?_⟩
        exact (Option.some.inj hp).symm
      | succ i =>
        rw [List.get?_cons_succ] at hp
        obtain ⟨k, fr', hget, hmod, hpk⟩ := ih (c + 1) (s + 1) i p hp
        refine ⟨k + 1, fr', by simpa using hget, ?_, ?_⟩
        · have e : c + 1 + k = c + (k + 1) := by omega
          rwa [e] at hmod
        · have e1 : c + 1 + k = c + (k + 1) := by omega
          have e2 : s + 1 + i = s + (i + 1) := by omega
          rwa [e1, e2] at hpk
    · rw [if_neg hc] at hp
      obtain ⟨k, fr', hget, hmod, hpk⟩ := ih (c + 1) s i p hp
      refine ⟨k + 1, fr', by simpa using hget, ?_, ?_⟩
      · have e : c + 1 + k = c + (k + 1) := by omega
        rwa [e] at hmod
      · have e : c + 1 + k = c + (k + 1) := by omega
        rwa [e] at hpk

theorem extractLoop_pairwise (itv : ℤ) (fps : ℚ) (l : List Frame) :
    ((extractLoop itv fps l 0 0).map (fun p => p.1.frame_number)).Pairwise (· < ·) := by
  rw [extractLoop_map_frame_number, ← List.range_eq_range']
  exact (List.pairwise_lt_range _).filter _

theorem extract_frames_ok (v : Video) (R : ℚ) (h1 : v.opened = true)
    (h2 : v.fps ≠ 0) (h3 : R ≠ 0) (h4 : pyInt (v.fps / R) ≠ 0) :
    extract_frames v R =
      ⟨(extractLoop (pyInt (v.fps / R)) v.fps v.frames 0 0).map Prod.fst,
       (extractLoop (pyInt (v.fps / R)) v.fps v.frames 0 0).map Prod.snd,
       true,
       some ((extractLoop (pyInt (v.fps / R)) v.fps v.frames 0 0).map Prod.fst),
       some ((v.frames.length : ℚ) / v.fps),
       false⟩ := by
  unfold extract_frames
  rw [h1]
  rw [if_neg (by simp)]
  rw [if_neg h2, if_neg h3, if_neg (fun h => h4 h.1)]

theorem resizeDims_spec (w h : ℕ) :
    resizeDims w h =
      (if 1280 < w then 1280 else w,
       if 1280 < w then h * 1280 / w else h) := by
  unfold resizeDims
  by_cases hw : 1280 < w
  · rw [if_pos hw, if_pos hw, if_pos hw]
    have hw0 : (w : ℚ) ≠ 0 := by
      have : 0 < w := by omega
      exact_mod_cast this.ne'
    have hwq : (w : ℚ) * (1280 / (w : ℚ)) = 1280 := mul_div_cancel₀ 1280 hw0
    have hhq : (h : ℚ) * (1280 / (w : ℚ)) = ((h * 1280 : ℕ) : ℚ) / ((w : ℕ) : ℚ) := by
      push_cast
      ring
    have h1 : (pyInt ((w : ℚ) * (1280 / (w : ℚ)))).toNat = 1280 := by
      rw [hwq, pyInt_of_nonneg (by norm_num)]
      norm_num
      decide
    have h2 : (pyInt ((h : ℚ) * (1280 / (w : ℚ)))).toNat = h * 1280 / w := by
      rw [hhq, pyInt_of_nonneg (by positivity), Int.floor_toNat, Nat.floor_div_nat,
        Nat.floor_natCast]
    exact Prod.ext h1 h2
  · rw [if_neg hw, if_neg hw, if_neg hw]

/- ## Helper lemmas: line counting -/

theorem lineCount_append (s t : String) :
    lineCount (s ++ t) = lineCount s + lineCount t := by
  simp [lineCount, String.data_append, List.count_append]

theorem digitChar_ne_newline {d : ℕ} (h : d < 10) : digitChar d ≠ '\n' := by
  interval_cases d <;> decide

theorem natDigitsAux_no_newline : ∀ (fuel n : ℕ), '\n' ∉ natDigitsAux fuel n := by
  intro fuel
  induction fuel with
  | zero => intro n; simp [natDigitsAux]
  | succ f ih =>
    intro n
    simp only [natDigitsAux]
    by_cases hn : n < 10
    · rw [if_pos hn]
      simp only [List.mem_singleton]
      exact fun h => (digitChar_ne_newline hn) h.symm
    · rw [if_neg hn]
      intro hmem
      rcases List.mem_append.mp hmem with h | h
      · exact ih _ h
      · have hlt : n % 10 < 10 := Nat.mod_lt _ (by norm_num)
        rw [List.mem_singleton] at h
        exact (digitChar_ne_newline hlt) h.symm

theorem lineCount_natStr (n : ℕ) : lineCount (natStr n) = 0 :=
  List.count_eq_zero.mpr (natDigitsAux_no_newline _ _)

theorem lineCount_intStr (i : ℤ) : lineCount (intStr i) = 0 := by
  unfold intStr
  by_cases hi : i < 0
  · rw [if_pos hi, lineCount_append, lineCount_natStr]
    decide
  · rw [if_neg hi]
    exact lineCount_natStr _

theorem lineCount_twoDigits (n : ℕ) : lineCount (twoDigits n) = 0 := by
  unfold twoDigits
  by_cases hn : n < 10
  · rw [if_pos hn, lineCount_append, lineCount_natStr]
    decide
  · rw [if_neg hn]
    exact lineCount_natStr _

theorem lineCount_timedeltaStr (n : ℤ) : lineCount (timedeltaStr n) = 0 := by
  unfold timedeltaStr
  simp only []
  set days := Int.fdiv n 86400 with hdays
  set rem := (n - 86400 * days).toNat with hrem
  have hhms : lineCount (natStr (rem / 3600) ++ ":" ++ twoDigits (rem % 3600 / 60)
      ++ ":" ++ twoDigits (rem % 60)) = 0 := by
    rw [lineCount_append, lineCount_append, lineCount_append, lineCount_append,
      lineCount_natStr, lineCount_twoDigits, lineCount_twoDigits]
    decide
  by_cases hd : days = 0
  · rw [if_pos hd]
    exact hhms
  · rw [if_neg hd, lineCount_append, lineCount_append, lineCount_intStr, hhms]
    by_cases h1 : days = 1 ∨ days = -1
    · rw [if_pos h1]; decide
    · rw [if_neg h1]; decide

theorem lineCount_segmentLine (seg : Segment)
    (h : '\n' ∉ (pyStrip seg.text).data) : lineCount (segmentLine seg) = 1 := by
  unfold segmentLine
  have hstrip : lineCount (pyStrip seg.text) = 0 := List.count_eq_zero.mpr h
  simp only [lineCount_append, lineCount_timedeltaStr, hstrip]
  decide

theorem lineCount_segmentLines (l : List Segment)
    (h : ∀ seg ∈ l, '\n' ∉ (pyStrip seg.text).data) :
    lineCount (segmentLines l) = l.length := by
  induction l with
  | nil => decide
  | cons seg rest ih =>
    simp only [segmentLines, List.length_cons]
    rw [lineCount_append, lineCount_segmentLine seg (h seg (List.mem_cons_self _ _)),
      ih (fun s hs => h s (List.mem_cons_of_mem _ hs))]
    omega

/- ## Claim theorems -/

/-- C10: if the source video cannot be opened, `extract_frames` returns the
empty list and leaves the filesystem unchanged on that path: no output
directory is created, no JPEG is written, and no `frame_index.json` manifest
is produced. -/
theorem open_failure_no_side_effects (v : Video) (R : ℚ) (h : v.opened = false) :
    extract_frames v R = ⟨[], [], false, none, none, false⟩ := by
  unfold extract_frames
  rw [h, if_pos rfl]

/-- C10 witness: a concrete video that fails to open. -/
theorem open_failure_no_side_effects_witness :
    (⟨false, 30, [⟨640, 480⟩]⟩ : Video).opened = false
      ∧ extract_frames ⟨false, 30, [⟨640, 480⟩]⟩ (1/2)
          = ⟨[], [], false, none, none, false⟩ :=
  ⟨rfl, open_failure_no_side_effects _ _ rfl⟩

/-- C7: the duration computation `total_frames / fps` is not guarded: at a
zero-fps source `extract_frames` faults (Python ZeroDivisionError) rather
than reporting a computed duration of 0.  This demonstrates the code bug the
claim (and the spec's stated intent) is about. -/
theorem zero_fps_duration_fault :
    (extract_frames ⟨true, 0, [⟨640, 480⟩]⟩ (1/2)).faulted = true
      ∧ (extract_frames ⟨true, 0, [⟨640, 480⟩]⟩ (1/2)).duration = none
      ∧ (extract_frames ⟨true, 0, [⟨640, 480⟩]⟩ (1/2)).duration ≠ some 0 := by
  with_unfolding_all decide

/-- C5: when the target WAV already exists, `extract_audio` does not invoke
the external transcoder, leaves the existing file's content unchanged, and
returns the path of the existing file. -/
theorem extract_audio_idempotent (stem : String) (env : AudioEnv) (content : List ℤ)
    (h : env.existingWav = some content) :
    extract_audio stem env = ⟨some (audioFileName stem), false, some content⟩ := by
  unfold extract_audio
  rw [h]

/-- C5 witness: a concrete environment with a pre-existing WAV file. -/
theorem extract_audio_idempotent_witness :
    (⟨some [1, 2, 3], 0, [], none⟩ : AudioEnv).existingWav = some [1, 2, 3]
      ∧ extract_audio "video1" ⟨some [1, 2, 3], 0, [], none⟩
          = ⟨some (audioFileName "video1"), false, some [1, 2, 3]⟩ :=
  ⟨rfl, extract_audio_idempotent _ _ _ rfl⟩

/-- C9: every sample produced by `load_audio_from_wav` lies in `[-1, 1]`
when the input samples are 16-bit signed PCM values. -/
theorem load_audio_normalized (samples : List ℤ)
    (h : ∀ s ∈ samples, -32768 ≤ s ∧ s ≤ 32767) :
    ∀ x ∈ load_audio_from_wav samples, -1 ≤ x ∧ x ≤ 1 := by
  rw [load_audio_from_wav, List.forall_mem_map]
  intro s hs
  obtain ⟨h1, h2⟩ := h s hs
  have hq1 : (-32768 : ℚ) ≤ (s : ℚ) := by exact_mod_cast h1
  have hq2 : (s : ℚ) ≤ 32767 := by exact_mod_cast h2
  constructor
  · rw [le_div_iff₀ (by norm_num : (0 : ℚ) < 32768)]
    linarith
  · rw [div_le_one (by norm_num : (0 : ℚ) < 32768)]
    linarith

/-- C9 witness: the extreme 16-bit PCM samples. -/
theorem load_audio_normalized_witness :
    (∀ s ∈ [(-32768 : ℤ), 0, 32767], -32768 ≤ s ∧ s ≤ 32767)
      ∧ ∀ x ∈ load_audio_from_wav [(-32768 : ℤ), 0, 32767], -1 ≤ x ∧ x ≤ 1 :=
  ⟨by decide, load_audio_normalized _ (by decide)⟩

/-- C3 counterexample: a single job whose source file is missing yields a run
with an empty summary map; no entry with `frames_extracted = 0` (or any entry
at all) is produced for that job, contrary to the claim. -/
theorem missing_source_no_entry_cx :
    ¬ ∃ (res : List (String × VideoSummary)) (s : VideoSummary),
        main [(⟨"video1", "v1", "T1"⟩,
               ⟨false, ⟨true, 30, []⟩, ⟨none, 0, [], none⟩, ⟨"", []⟩⟩)]
            = some res
          ∧ ("video1", s) ∈ res ∧ s.frames_extracted = 0 := by
  rintro ⟨res, s, hres, hmem, -⟩
  have hempty : main [((⟨"video1", "v1", "T1"⟩ : VideoJob),
      (⟨false, ⟨true, 30, []⟩, ⟨none, 0, [], none⟩, ⟨"", []⟩⟩ : JobEnv))]
      = some [] := rfl
  rw [hempty] at hres
  cases Option.some.inj hres
  simp at hmem

/-- C3 (amended): a job whose source file does not exist is skipped entirely:
`processJob` yields no summary entry for it and `main` continues with the
remaining jobs, without crashing; the overall result is exactly that of the
remaining jobs. -/
theorem missing_source_skipped (job : VideoJob) (env : JobEnv)
    (rest : List (VideoJob × JobEnv)) (h : env.sourceExists = false) :
    processJob job env = ⟨false, none, none⟩
      ∧ main ((job, env) :: rest) = main rest := by
  have hpj : processJob job env = ⟨false, none, none⟩ := by
    unfold processJob
    rw [h, if_pos rfl]
  refine ⟨hpj, ?_⟩
  rw [main_cons, hpj]
  rfl

/-- C3 witness: a concrete missing-source job in front of an empty tail. -/
theorem missing_source_skipped_witness :
    ((⟨false, ⟨true, 30, []⟩, ⟨none, 0, [], none⟩, ⟨"", []⟩⟩ : JobEnv)).sourceExists = false
      ∧ (processJob ⟨"video1", "v1", "T1"⟩ ⟨false, ⟨true, 30, []⟩, ⟨none, 0, [], none⟩, ⟨"", []⟩⟩
            = ⟨false, none, none⟩
          ∧ main [(⟨"video1", "v1", "T1"⟩, ⟨false, ⟨true, 30, []⟩, ⟨none, 0, [], none⟩, ⟨"", []⟩⟩)]
            = main []) :=
  ⟨rfl, missing_source_skipped _ _ _ rfl⟩

/-- C4: when the transcoder exits non-zero, `extract_audio` returns no result,
transcription is skipped for that job, the persisted summary entry carries
`error = "Audio extraction failed"` and `segments_count = 0`, and the run
continues with the remaining jobs. -/
theorem audio_failure_summary (job : VideoJob) (env : JobEnv)
    (rest : List (VideoJob × JobEnv))
    (hsrc : env.sourceExists = true)
    (hwav : env.audio.existingWav = none)
    (hexit : env.audio.transcoderExit ≠ 0)
    (hff : (extract_frames env.video (1/2)).faulted = false) :
    (extract_audio job.stem env.audio).returned = none
      ∧ processJob job env
          = ⟨false,
             some (job.name,
               ⟨job.title, (extract_frames env.video (1/2)).returnedFrames.length,
                framesDir job.name, 0, 0, some "Audio extraction failed"⟩),
             none⟩
      ∧ main ((job, env) :: rest)
          = (main rest).map (fun r =>
              (job.name,
                (⟨job.title, (extract_frames env.video (1/2)).returnedFrames.length,
                  framesDir job.name, 0, 0,
                  some "Audio extraction failed"⟩ : VideoSummary)) :: r) := by
  have hau : extract_audio job.stem env.audio = ⟨none, true, env.audio.failureLeftover⟩ := by
    unfold extract_audio
    rw [hwav]
    exact if_pos hexit
  have hpj : processJob job env
      = ⟨false,
         some (job.name,
           ⟨job.title, (extract_frames env.video (1/2)).returnedFrames.length,
            framesDir job.name, 0, 0, some "Audio extraction failed"⟩),
         none⟩ := by
    unfold processJob
    rw [hsrc, if_neg (by simp), hff, if_neg (by simp), hau, if_neg (by simp)]
  refine ⟨by rw [hau], hpj, ?_⟩
  rw [main_cons, hpj]
  rfl

/-- C4 witness: a concrete job whose transcoder exits with code 1. -/
theorem audio_failure_summary_witness :
    ((⟨true, ⟨false, 0, []⟩, ⟨none, 1, [], none⟩, ⟨"", []⟩⟩ : JobEnv)).sourceExists = true
      ∧ ((⟨none, 1, [], none⟩ : AudioEnv)).transcoderExit ≠ 0
      ∧ ((extract_audio "v1" ⟨none, 1, [], none⟩).returned = none
          ∧ processJob ⟨"video1", "v1", "T1"⟩ ⟨true, ⟨false, 0, []⟩, ⟨none, 1, [], none⟩, ⟨"", []⟩⟩
              = ⟨false,
                 some ("video1",
                   ⟨"T1", (extract_frames ⟨false, 0, []⟩ (1/2)).returnedFrames.length,
                    framesDir "video1", 0, 0, some "Audio extraction failed"⟩),
                 none⟩
          ∧ main [(⟨"video1", "v1", "T1"⟩, ⟨true, ⟨false, 0, []⟩, ⟨none, 1, [], none⟩, ⟨"", []⟩⟩)]
              = (main []).map (fun r =>
                  ("video1",
                    (⟨"T1", (extract_frames ⟨false, 0, []⟩ (1/2)).returnedFrames.length,
                      framesDir "video1", 0, 0,
                      some "Audio extraction failed"⟩ : VideoSummary)) :: r)) :=
  ⟨rfl, by decide,
    audio_failure_summary ⟨"video1", "v1", "T1"⟩
      ⟨true, ⟨false, 0, []⟩, ⟨none, 1, [], none⟩, ⟨"", []⟩⟩ [] rfl rfl (by decide) rfl⟩

/-- C6 counterexample: with one JSON segment the text transcript written by
the same call has 3 newline-terminated lines (title line, blank line, one
segment line), so the line count does not equal the segment count. -/
theorem transcript_line_count_cx :
    lineCount (transcribe_audio "video1" ⟨"hi", [⟨0, 1, "hi"⟩]⟩).txt
      ≠ (transcribe_audio "video1" ⟨"hi", [⟨0, 1, "hi"⟩]⟩).jsonSegments.length := by
  with_unfolding_all decide

/-- C6 (amended): the number of lines in the text transcript equals the number
of JSON segments plus the two header lines (title line and blank line),
provided the audio stem and the stripped segment texts contain no newline
character (as is the case for Whisper output). -/
theorem transcript_line_count (stem : String) (r : WhisperResult)
    (hstem : '\n' ∉ stem.data)
    (hsegs : ∀ seg ∈ r.segments, '\n' ∉ (pyStrip seg.text).data) :
    lineCount (transcribe_audio stem r).txt
      = (transcribe_audio stem r).jsonSegments.length + 2 := by
  simp only [transcribe_audio, transcriptText]
  rw [List.length_map, lineCount_append, lineCount_append, lineCount_append,
    lineCount_segmentLines r.segments hsegs]
  have hstem0 : lineCount stem = 0 := List.count_eq_zero.mpr hstem
  have h1 : lineCount "# Transcript: " = 0 := by decide
  have h2 : lineCount "\n\n" = 2 := by decide
  omega

/-- C6 witness: one segment gives 3 text lines and 1 JSON segment. -/
theorem transcript_line_count_witness :
    ('\n' ∉ "video1".data
        ∧ ∀ seg ∈ [(⟨0, 1, "hi"⟩ : Segment)], '\n' ∉ (pyStrip seg.text).data)
      ∧ lineCount (transcribe_audio "video1" ⟨"hi", [⟨0, 1, "hi"⟩]⟩).txt
          = (transcribe_audio "video1" ⟨"hi", [⟨0, 1, "hi"⟩]⟩).jsonSegments.length + 2 :=
  ⟨⟨by decide, by decide⟩, transcript_line_count _ _ (by decide) (by decide)⟩

/-- C2 counterexample: a 29.5 fps source sampled at 2 frames/sec.  The code
computes `int(29.5 / 2) = int(14.75) = 14` and keeps frames 0 and 14 of a
15-frame source, while round-to-nearest gives stride `round(14.75) = 15`,
under which frame 14 would not be kept; so the stride is not computed by
rounding to nearest. -/
theorem stride_round_cx :
    (extract_frames ⟨true, 59/2, List.replicate 15 ⟨10, 10⟩⟩ 2).returnedFrames.map
        (fun ef => ef.frame_number) = [0, 14]
      ∧ round ((59 : ℚ) / 2 / 2) = 15
      ∧ ¬ (∀ ef ∈ (extract_frames ⟨true, 59/2, List.replicate 15 ⟨10, 10⟩⟩ 2).returnedFrames,
            (ef.frame_number : ℤ) % round ((59 : ℚ) / 2 / 2) = 0) := by
  with_unfolding_all decide

/-- C2 (amended): the Frame Sampler computes its stride as
`int(source_fps / sampling_rate)` — truncation toward zero, not rounding to
nearest — and keeps exactly the decoded frames whose index is a multiple of
that stride; a 30 fps source sampled at 0.5 frames/sec still uses stride 60. -/
theorem stride_trunc_keeps_multiples (v : Video) (R : ℚ) (h1 : v.opened = true)
    (h2 : v.fps ≠ 0) (h3 : R ≠ 0) (h4 : pyInt (v.fps / R) ≠ 0) :
    (extract_frames v R).returnedFrames.map (fun ef => ef.frame_number)
        = (List.range v.frames.length).filter
            (fun (k : ℕ) => decide ((k : ℤ) % pyInt (v.fps / R) = 0))
      ∧ pyInt ((30 : ℚ) / (1/2)) = 60 := by
  constructor
  · rw [extract_frames_ok v R h1 h2 h3 h4]
    show ((extractLoop (pyInt (v.fps / R)) v.fps v.frames 0 0).map Prod.fst).map
        (fun ef => ef.frame_number) = _
    rw [List.map_map, List.range_eq_range']
    exact extractLoop_map_frame_number (pyInt (v.fps / R)) v.fps v.frames 0 0
  · with_unfolding_all decide

/-- C2 witness: a 30 fps, 5-frame source sampled at 0.5 frames/sec. -/
theorem stride_trunc_keeps_multiples_witness :
    ((30 : ℚ) ≠ 0 ∧ (1/2 : ℚ) ≠ 0 ∧ pyInt ((30 : ℚ) / (1/2)) ≠ 0)
      ∧ ((extract_frames ⟨true, 30, List.replicate 5 ⟨640, 480⟩⟩ (1/2)).returnedFrames.map
            (fun ef => ef.frame_number)
          = (List.range (⟨true, 30, List.replicate 5 ⟨640, 480⟩⟩ : Video).frames.length).filter
              (fun (k : ℕ) => decide ((k : ℤ) % pyInt ((30 : ℚ) / (1/2)) = 0))
        ∧ pyInt ((30 : ℚ) / (1/2)) = 60) :=
  ⟨⟨by norm_num, by norm_num, by with_unfolding_all decide⟩,
    stride_trunc_keeps_multiples ⟨true, 30, List.replicate 5 ⟨640, 480⟩⟩ (1/2)
      rfl (by norm_num) (by norm_num) (by with_unfolding_all decide)⟩

/-- C8: every kept frame is saved as a JPEG at quality 85 under the file name
`frame_<4-digit zero-padded sequence index>_t<timestamp, one decimal>s.jpg`;
a kept frame wider than 1280 pixels is scaled proportionally to width 1280
(height becoming `int(height * 1280 / width)`), and narrower frames keep
their dimensions. -/
theorem saved_frames_format (v : Video) (R : ℚ) (h1 : v.opened = true)
    (h2 : v.fps ≠ 0) (h3 : R ≠ 0) (h4 : pyInt (v.fps / R) ≠ 0) :
    ∀ (i : ℕ) (ef : ExtractedFrame) (si : SavedImage) (fr : Frame),
      (extract_frames v R).returnedFrames.get? i = some ef →
      (extract_frames v R).savedImages.get? i = some si →
      v.frames.get? ef.frame_number = some fr →
      si = ⟨mkFilename i ((ef.frame_number : ℚ) / v.fps),
            if 1280 < fr.width then 1280 else fr.width,
            if 1280 < fr.width then fr.height * 1280 / fr.width else fr.height,
            85⟩ := by
  intro i ef si fr hef hsi hfr
  rw [extract_frames_ok v R h1 h2 h3 h4] at hef hsi
  simp only [List.get?_map] at hef hsi
  obtain ⟨p, hp, hpef⟩ := Option.map_eq_some'.mp hef
  obtain ⟨p', hp', hpsi⟩ := Option.map_eq_some'.mp hsi
  rw [hp] at hp'
  cases Option.some.inj hp'
  obtain ⟨k, fr', hget, hmod, hpk⟩ := extractLoop_get? _ _ _ _ _ _ _ hp
  subst hpk
  subst hpef
  subst hpsi
  have hefn : (keepFrame v.fps (0 + k) (0 + i) fr').1.frame_number = 0 + k := rfl
  rw [hefn, Nat.zero_add] at hfr
  cases Option.some.inj (hget.symm.trans hfr)
  simp only [keepFrame, resizeDims_spec, Nat.zero_add]

/-- C8 witness: a single 1920x1080 frame is saved as 1280x720, quality 85,
with the sequence-0, timestamp-0 file name. -/
theorem saved_frames_format_witness :
    (extract_frames ⟨true, 1, [⟨1920, 1080⟩]⟩ 1).savedImages.get? 0
      = some ⟨mkFilename 0 ((0 : ℚ) / 1),
              if 1280 < (1920 : ℕ) then 1280 else 1920,
              if 1280 < (1920 : ℕ) then 1080 * 1280 / 1920 else 1080, 85⟩ := by
  have hef : (extract_frames ⟨true, 1, [⟨1920, 1080⟩]⟩ 1).returnedFrames.get? 0
      = some ⟨mkFilename 0 ((0 : ℚ) / 1), (0 : ℚ) / 1, 0⟩ := by
    with_unfolding_all decide
  have hsi : (extract_frames ⟨true, 1, [⟨1920, 1080⟩]⟩ 1).savedImages.get? 0
      = some ⟨mkFilename 0 ((0 : ℚ) / 1), 1280, 720, 85⟩ := by
    with_unfolding_all decide
  have hfr : (⟨true, 1, [⟨1920, 1080⟩]⟩ : Video).frames.get?
      ((⟨mkFilename 0 ((0 : ℚ) / 1), (0 : ℚ) / 1, 0⟩ : ExtractedFrame)).frame_number
      = some ⟨1920, 1080⟩ := rfl
  have h := saved_frames_format ⟨true, 1, [⟨1920, 1080⟩]⟩ 1 rfl (by norm_num) (by norm_num)
      (by with_unfolding_all decide) 0 _ _ _ hef hsi hfr
  rw [hsi]
  refine (congrArg some h).trans ?_
  with_unfolding_all decide

/-- C1 counterexample: a 1-frame, 30 fps source sampled at 0.5 frames/sec
(duration D = 1/30 s).  The code saves 1 frame (frame 0), while
`floor(D * F / round(F / R)) = floor(1/60) = 0`. -/
theorem frame_count_floor_cx :
    ¬ (((extract_frames ⟨true, 30, [⟨8, 8⟩]⟩ (1/2)).returnedFrames.length : ℤ)
        = ⌊(((⟨true, 30, [⟨8, 8⟩]⟩ : Video).frames.length : ℚ) / 30 * 30
            / ((round ((30 : ℚ) / (1/2)) : ℤ) : ℚ))⌋) := by
  with_unfolding_all decide

/-- C1 (amended): for an opened source of N frames at rate F sampled at rate
R with 0 < R < F (so D = N / F), the number of saved frames equals
`ceil(D * F / int(F / R))` — ceiling, with the stride computed by `int()`
truncation — and the recorded timestamps are strictly increasing and lie
within `[0, D]`. -/
theorem frame_count_and_timestamps (v : Video) (R : ℚ) (h1 : v.opened = true)
    (hR : 0 < R) (hRF : R < v.fps) :
    ((extract_frames v R).returnedFrames.length : ℤ)
        = ⌈((v.frames.length : ℚ) / v.fps * v.fps) / ((pyInt (v.fps / R) : ℤ) : ℚ)⌉
      ∧ ((extract_frames v R).returnedFrames.map (fun ef => ef.timestamp)).Pairwise (· < ·)
      ∧ ∀ ef ∈ (extract_frames v R).returnedFrames,
          0 ≤ ef.timestamp ∧ ef.timestamp ≤ (v.frames.length : ℚ) / v.fps := by
  have hfps : 0 < v.fps := hR.trans hRF
  have h2 : v.fps ≠ 0 := ne_of_gt hfps
  have h3 : R ≠ 0 := ne_of_gt hR
  have hq1 : 1 < v.fps / R := (one_lt_div hR).mpr hRF
  have hq0 : 0 ≤ v.fps / R := le_of_lt (lt_trans one_pos hq1)
  have hstride : 1 ≤ pyInt (v.fps / R) := by
    rw [pyInt_of_nonneg hq0]
    exact Int.le_floor.mpr (by exact_mod_cast hq1.le)
  have h4 : pyInt (v.fps / R) ≠ 0 := by omega
  rw [extract_frames_ok v R h1 h2 h3 h4]
  set s : ℤ := pyInt (v.fps / R) with hs
  set m : ℕ := s.toNat with hm
  have hms : (m : ℤ) = s := Int.toNat_of_nonneg (by omega)
  have hm1 : 0 < m := by omega
  set N := v.frames.length with hN
  have hmap : ((extractLoop s v.fps v.frames 0 0).map Prod.fst).map (fun ef => ef.frame_number)
      = (List.range' 0 N).filter (fun (k : ℕ) => decide ((k : ℤ) % s = 0)) := by
    rw [List.map_map]
    exact extractLoop_map_frame_number s v.fps v.frames 0 0
  refine ⟨?_, ?_, ?_⟩
  · show (((extractLoop s v.fps v.frames 0 0).map Prod.fst).length : ℤ) = _
    have hDF : (N : ℚ) / v.fps * v.fps = (N : ℚ) := div_mul_cancel₀ _ h2
    have hlen : ((extractLoop s v.fps v.frames 0 0).map Prod.fst).length
        = ((List.range' 0 N).filter (fun (k : ℕ) => decide ((k : ℤ) % s = 0))).length := by
      rw [← hmap]
      simp only [List.length_map]
    have hcount := length_filter_range'_mod m hm1 N 0
    rw [hms] at hcount
    have hz : (0 + m - 1) / m = 0 := Nat.div_eq_of_lt (by omega)
    have he : 0 + N + m - 1 = N + m - 1 := by omega
    rw [hz, he, Nat.add_zero] at hcount
    have hceil := ceil_natCast_div N m hm1
    have hcast : ((m : ℕ) : ℚ) = ((s : ℤ) : ℚ) := by
      rw [← hms]
      push_cast
      rfl
    rw [hlen, hcount, hDF, ← hcast, hceil]
  · show (((extractLoop s v.fps v.frames 0 0).map Prod.fst).map (fun ef => ef.timestamp)).Pairwise _
    have hpwfn : (((extractLoop s v.fps v.frames 0 0).map Prod.fst).map
        (fun ef => ef.frame_number)).Pairwise (· < ·) := by
      rw [List.map_map]
      exact extractLoop_pairwise s v.fps v.frames
    rw [List.pairwise_map] at hpwfn ⊢
    refine hpwfn.imp_of_mem ?_
    intro a b ha hb hab
    obtain ⟨pa, hpa, rfl⟩ := List.mem_map.mp ha
    obtain ⟨pb, hpb, rfl⟩ := List.mem_map.mp hb
    rw [extractLoop_timestamp s v.fps v.frames 0 0 pa hpa,
      extractLoop_timestamp s v.fps v.frames 0 0 pb hpb]
    have : (pa.1.frame_number : ℚ) < (pb.1.frame_number : ℚ) := by exact_mod_cast hab
    gcongr
  · intro ef hef
    show 0 ≤ ef.timestamp ∧ ef.timestamp ≤ (N : ℚ) / v.fps
    obtain ⟨p, hp, rfl⟩ := List.mem_map.mp hef
    have hts := extractLoop_timestamp s v.fps v.frames 0 0 p hp
    have hmem : p.1.frame_number ∈
        (List.range' 0 N).filter (fun (k : ℕ) => decide ((k : ℤ) % s = 0)) := by
      rw [← hmap]
      exact List.mem_map_of_mem _ (List.mem_map_of_mem _ hp)
    have hrange := (List.mem_filter.mp hmem).1
    have hlt : p.1.frame_number < N := by
      rw [← List.range_eq_range'] at hrange
      exact List.mem_range.mp hrange
    constructor
    · rw [hts]
      positivity
    · rw [hts]
      have hle : (p.1.frame_number : ℚ) ≤ (N : ℚ) := by exact_mod_cast hlt.le
      gcongr

/-- C1 witness: a 3-frame, 30 fps source sampled at 10 frames/sec (stride 3)
saves ceil(3/3) = 1 frame with a monotone, in-range timestamp. -/
theorem frame_count_and_timestamps_witness :
    ((0 : ℚ) < 10 ∧ (10 : ℚ) < (⟨true, 30, [⟨8, 8⟩, ⟨8, 8⟩, ⟨8, 8⟩]⟩ : Video).fps)
      ∧ (((extract_frames ⟨true, 30, [⟨8, 8⟩, ⟨8, 8⟩, ⟨8, 8⟩]⟩ 10).returnedFrames.length : ℤ)
            = ⌈(((⟨true, 30, [⟨8, 8⟩, ⟨8, 8⟩, ⟨8, 8⟩]⟩ : Video).frames.length : ℚ)
                  / (⟨true, 30, [⟨8, 8⟩, ⟨8, 8⟩, ⟨8, 8⟩]⟩ : Video).fps
                  * (⟨true, 30, [⟨8, 8⟩, ⟨8, 8⟩, ⟨8, 8⟩]⟩ : Video).fps)
                / ((pyInt ((⟨true, 30, [⟨8, 8⟩, ⟨8, 8⟩, ⟨8, 8⟩]⟩ : Video).fps / 10) : ℤ) : ℚ)⌉
          ∧ ((extract_frames ⟨true, 30, [⟨8, 8⟩, ⟨8, 8⟩, ⟨8, 8⟩]⟩ 10).returnedFrames.map
                (fun ef => ef.timestamp)).Pairwise (· < ·)
          ∧ ∀ ef ∈ (extract_frames ⟨true, 30, [⟨8, 8⟩, ⟨8, 8⟩, ⟨8, 8⟩]⟩ 10).returnedFrames,
              0 ≤ ef.timestamp
                ∧ ef.timestamp ≤ ((⟨true, 30, [⟨8, 8⟩, ⟨8, 8⟩, ⟨8, 8⟩]⟩ : Video).frames.length : ℚ)
                    / (⟨true, 30, [⟨8, 8⟩, ⟨8, 8⟩, ⟨8, 8⟩]⟩ : Video).fps) :=
  ⟨⟨by norm_num, by with_unfolding_all decide⟩,
    frame_count_and_timestamps ⟨true, 30, [⟨8, 8⟩, ⟨8, 8⟩, ⟨8, 8⟩]⟩ 10
      rfl (by norm_num) (by with_unfolding_all decide)⟩
